import Mathlib

/-!
Verification of the Solo Leveling progression engine.

Shallow embedding of the core of `sl.py`, `slv2.py`, `slv3.py` and
`tokyo_night_gui.py`: the leveling-curve calculator
(`sigmoid_level_calculation`), the skill taxonomy, the SQLite-backed store
(skills / sessions / session_updates tables, modelled as pure Lean lists),
the session validation/commit path (`process_skill_updates`,
`save_update_session`), the crystal-ball assessment path, first-run
detection and the history readers.

Python's `math.exp` over IEEE doubles is modelled by `Real.exp`;
Python's `int(...)` truncation is modelled by `Int.floor`, which agrees
with truncation because every truncated quantity in the source is
nonnegative.  SQLite rows are modelled as Lean lists of structures;
`session_updates` rows are carried inside their parent `Session` record,
mirroring the `session_id` foreign key.  Timestamps are modelled as
naturals, ordered the way ISO-8601 timestamp strings are ordered by
SQLite's `ORDER BY`.
-/

namespace SoloLeveling

/-- The fixed skill taxonomy `self.attributes`, identical in all four
source files: five categories of ten skills each. -/
def attributes : List (String × List String) :=
  [ ("life_skills",
      ["communication", "critical_thinking_problem_solving", "time_management",
       "self_care_emotional_regulation", "cooking_nutrition", "car_home_maintenance",
       "digital_literacy", "interpersonal_social_skills", "independence", "learning_efficiency"]),
    ("content_creation",
      ["seo_literacy", "video_editing", "streaming", "long_form_content_output",
       "short_form_content_output", "charisma", "personality_authenticity",
       "online_presence", "consistency", "backlog_management"]),
    ("financial_literacy",
      ["budgeting_savings", "emergency_fund_management", "investment_knowledge",
       "retirement_contributions_roth", "401k_optimization", "hsa_utilization",
       "insurance_literacy", "loan_understanding", "tax_optimization", "financial_goal_tracking"]),
    ("career",
      ["technical_mastery", "soft_skills_work", "time_management_work",
       "growth_milestones", "professional_networking", "contribution_tracking",
       "performance_feedback", "industry_knowledge", "leadership_development", "project_management"]),
    ("vision_strategy",
      ["daily_goal_setting", "weekly_planning", "monthly_goal_review",
       "quarterly_assessment", "yearly_vision_alignment", "system_design",
       "reflection_reviewing", "strategic_thinking", "priority_management", "personal_roadmapping"]) ]

/-- One row of the `skills` table: `(attribute, skill_name, current_level)`. -/
structure SkillRow where
  attr : String
  skill : String
  current_level : Int
deriving DecidableEq

/-- One row of the `session_updates` table:
`(attribute, skill_name, old_level, new_level, gain)`. -/
structure SessionUpdate where
  attr : String
  skill : String
  old_level : Int
  new_level : Int
  gain : Int
deriving DecidableEq

/-- One row of the `sessions` table, carrying its `session_updates`
children (the `session_id` foreign key is modelled by containment). -/
structure Session where
  timestamp : Nat
  total_gains : Int
  stype : String
  updates : List SessionUpdate
deriving DecidableEq

/-- The persistent store: the `skills` table plus the append-only
`sessions` table. -/
structure Store where
  skills : List SkillRow
  sessions : List Session
deriving DecidableEq

/-- Row-level lookup in the `skills` table by `(attribute, skill_name)`,
defaulting to 1 for a missing row. -/
def lookup_level (rows : List SkillRow) (a sk : String) : Int :=
  match rows.find? (fun r => r.attr = a && r.skill = sk) with
  | some r => r.current_level
  | none => 1

/-- `get_current_skills(...).get(attribute, {}).get(skill, 1)`: the stored
level of a skill, defaulting to 1 when the row is absent. -/
def get_current_skill (s : Store) (a sk : String) : Int :=
  lookup_level s.skills a sk

/-- `UPDATE skills SET current_level = v WHERE attribute = a AND skill_name = sk`:
every matching row (at most one, by the table's UNIQUE constraint) gets the
new level; a missing row is silently left missing. -/
def setLevel (rows : List SkillRow) (a sk : String) (v : Int) : List SkillRow :=
  rows.map (fun r => if r.attr = a && r.skill = sk then { r with current_level := v } else r)

/-- The store initialized by `init_database`: one row per taxonomy entry at
level 1, and no sessions. -/
def initial_store : Store :=
  { skills := attributes.flatMap (fun p => p.2.map (fun sk => ⟨p.1, sk, 1⟩)),
    sessions := [] }

/-- `sigmoid_level_calculation(total_points, max_points)` from
`sl.py:46`, `slv2.py:240`, `slv3.py:146`, `tokyo_night_gui.py`:
nonpositive points floor at level 1; otherwise the normalized points are
passed through a logistic curve with steepness 10 centered at 0.5, scaled
into 1..100 and clamped at 100.  Python's `int(...)` is `Int.floor` here
because `1 + sigmoid_value * 99 > 0`. -/
noncomputable def sigmoid_level_calculation (total_points max_points : Int) : Int :=
  if total_points ≤ 0 then 1
  else
    min ⌊1 + (1 / (1 + Real.exp (-10 * ((total_points : ℝ) / (max_points : ℝ) - 0.5)))) * 99⌋ 100

/-- `SELECT SUM(current_level) FROM skills WHERE attribute = a` (with
`or 0` for an empty result). -/
def attribute_points (s : Store) (a : String) : Int :=
  ((s.skills.filter (fun r => r.attr = a)).map SkillRow.current_level).sum

/-- The taxonomy's skill list for a category, `self.attributes[attribute]`. -/
def attribute_skill_names (a : String) : List String :=
  ((attributes.find? (fun p => p.1 = a)).map Prod.snd).getD []

/-- `calculate_attribute_level` (slv2.py:255, slv3.py:156): sigmoid of the
summed levels of the category against `skillCount * 100`. -/
noncomputable def calculate_attribute_level (s : Store) (a : String) : Int :=
  sigmoid_level_calculation (attribute_points s a) ((attribute_skill_names a).length * 100)

/-- `sum(self.calculate_attribute_level(attr) for attr in self.attributes)`. -/
noncomputable def total_attribute_points (s : Store) : Int :=
  (attributes.map (fun p => calculate_attribute_level s p.1)).sum

/-- `calculate_overall_level` in slv2.py:268: the sigmoid applied to the
sum of the five category levels against `categoryCount * 100 = 500`. -/
noncomputable def calculate_overall_level_v2 (s : Store) : Int :=
  sigmoid_level_calculation (total_attribute_points s) (attributes.length * 100)

/-- `calculate_overall_level` in slv3.py:169 and tokyo_night_gui.py: the
raw sum of the five category levels, returned for display as `X/500`
without passing through the sigmoid. -/
noncomputable def calculate_overall_level_v3 (s : Store) : Int :=
  total_attribute_points s

/- ### Leveling-curve lemmas -/

lemma one_add_exp_pos (y : ℝ) : 0 < 1 + Real.exp y := by positivity

lemma logistic_pos (y : ℝ) : 0 < 1 / (1 + Real.exp y) := by positivity

lemma logistic_lt_one (y : ℝ) : 1 / (1 + Real.exp y) < 1 := by
  rw [div_lt_one (one_add_exp_pos y)]
  linarith [Real.exp_pos y]

lemma sigmoid_of_nonpos {tp : Int} (mp : Int) (h : tp ≤ 0) :
    sigmoid_level_calculation tp mp = 1 := by
  simp [sigmoid_level_calculation, h]

lemma sigmoid_of_pos {tp : Int} (mp : Int) (h : 0 < tp) :
    sigmoid_level_calculation tp mp =
      min ⌊1 + (1 / (1 + Real.exp (-10 * ((tp : ℝ) / (mp : ℝ) - 0.5)))) * 99⌋ 100 := by
  simp [sigmoid_level_calculation, not_le.mpr h]

lemma sigmoid_ge_one (tp mp : Int) : 1 ≤ sigmoid_level_calculation tp mp := by
  by_cases h : tp ≤ 0
  · rw [sigmoid_of_nonpos mp h]
  · rw [sigmoid_of_pos mp (not_le.mp h)]
    refine le_min (Int.le_floor.mpr ?_) (by norm_num)
    have hs := logistic_pos (-10 * ((tp : ℝ) / (mp : ℝ) - 0.5))
    push_cast
    nlinarith

lemma sigmoid_le_100 (tp mp : Int) : sigmoid_level_calculation tp mp ≤ 100 := by
  by_cases h : tp ≤ 0
  · rw [sigmoid_of_nonpos mp h]; norm_num
  · rw [sigmoid_of_pos mp (not_le.mp h)]
    exact min_le_right _ _

lemma sigmoid_le_99_of_pos {tp : Int} (mp : Int) (h : 0 < tp) :
    sigmoid_level_calculation tp mp ≤ 99 := by
  rw [sigmoid_of_pos mp h]
  refine min_le_of_left_le ?_
  have hlt : ⌊1 + (1 / (1 + Real.exp (-10 * ((tp : ℝ) / (mp : ℝ) - 0.5)))) * 99⌋ < 100 := by
    rw [Int.floor_lt]
    have hs := logistic_lt_one (-10 * ((tp : ℝ) / (mp : ℝ) - 0.5))
    have hp := logistic_pos (-10 * ((tp : ℝ) / (mp : ℝ) - 0.5))
    push_cast
    nlinarith
  omega

lemma sigmoid_mono {m : Int} (hm : 0 < m) {t1 t2 : Int} (h12 : t1 ≤ t2) :
    sigmoid_level_calculation t1 m ≤ sigmoid_level_calculation t2 m := by
  by_cases h1 : t1 ≤ 0
  · rw [sigmoid_of_nonpos m h1]
    exact sigmoid_ge_one t2 m
  · have ht1 : 0 < t1 := not_le.mp h1
    have ht2 : 0 < t2 := lt_of_lt_of_le ht1 h12
    rw [sigmoid_of_pos m ht1, sigmoid_of_pos m ht2]
    have hmR : (0 : ℝ) < (m : ℝ) := by exact_mod_cast hm
    have hx : (t1 : ℝ) / (m : ℝ) ≤ (t2 : ℝ) / (m : ℝ) :=
      (div_le_div_iff_of_pos_right hmR).mpr (by exact_mod_cast h12)
    have hy : -10 * ((t2 : ℝ) / (m : ℝ) - 0.5) ≤ -10 * ((t1 : ℝ) / (m : ℝ) - 0.5) := by
      linarith
    have hE : Real.exp (-10 * ((t2 : ℝ) / (m : ℝ) - 0.5)) ≤
        Real.exp (-10 * ((t1 : ℝ) / (m : ℝ) - 0.5)) := Real.exp_le_exp.mpr hy
    have hs : 1 / (1 + Real.exp (-10 * ((t1 : ℝ) / (m : ℝ) - 0.5))) ≤
        1 / (1 + Real.exp (-10 * ((t2 : ℝ) / (m : ℝ) - 0.5))) := by
      apply one_div_le_one_div_of_le (one_add_exp_pos _)
      linarith
    exact min_le_min (Int.floor_le_floor (by nlinarith)) le_rfl

lemma exp_forty_nine_tenths_gt : (98 : ℝ) < Real.exp 4.9 := by
  have hsplit : Real.exp (4.9 : ℝ) = Real.exp 1 ^ 4 * Real.exp 0.9 := by
    rw [Real.exp_one_pow, ← Real.exp_add]
    norm_num
  have he : (2.7182818283 : ℝ) < Real.exp 1 := Real.exp_one_gt_d9
  have h4 : (2.7182818283 : ℝ) ^ 4 < Real.exp 1 ^ 4 :=
    pow_lt_pow_left₀ he (by norm_num) (by norm_num)
  have h9 : (1.9 : ℝ) ≤ Real.exp 0.9 := by
    have := Real.add_one_le_exp (0.9 : ℝ)
    linarith
  have hbig : (98 : ℝ) < (2.7182818283 : ℝ) ^ 4 * 1.9 := by norm_num
  calc (98 : ℝ) < (2.7182818283 : ℝ) ^ 4 * 1.9 := hbig
    _ ≤ Real.exp 1 ^ 4 * Real.exp 0.9 := by
        have h4p : (0 : ℝ) < (2.7182818283 : ℝ) ^ 4 := by norm_num
        nlinarith [Real.exp_pos (0.9 : ℝ)]
    _ = Real.exp 4.9 := hsplit.symm

/-- When the points are at most one percent of the maximum, the sigmoid
floors at level 1 (the logistic value is below 1/99). -/
lemma sigmoid_small {tp mp : Int} (h : 0 < tp) (hm : 0 < mp)
    (hx : (tp : ℝ) ≤ (mp : ℝ) / 100) : sigmoid_level_calculation tp mp = 1 := by
  rw [sigmoid_of_pos mp h]
  have hmR : (0 : ℝ) < (mp : ℝ) := by exact_mod_cast hm
  set x : ℝ := (tp : ℝ) / (mp : ℝ) with hxdef
  have hx100 : x ≤ 1 / 100 := by
    rw [hxdef, div_le_div_iff₀ hmR (by norm_num)]
    linarith
  have hy : (4.9 : ℝ) ≤ -10 * (x - 0.5) := by linarith
  have hE : Real.exp 4.9 ≤ Real.exp (-10 * (x - 0.5)) := Real.exp_le_exp.mpr hy
  have hE98 : (98 : ℝ) < Real.exp (-10 * (x - 0.5)) :=
    lt_of_lt_of_le exp_forty_nine_tenths_gt hE
  have hs : 1 / (1 + Real.exp (-10 * (x - 0.5))) < 1 / 99 := by
    apply (div_lt_div_iff₀ (one_add_exp_pos _) (by norm_num)).mpr
    linarith
  have hp := logistic_pos (-10 * (x - 0.5))
  have hfloor : ⌊1 + (1 / (1 + Real.exp (-10 * (x - 0.5)))) * 99⌋ = 1 := by
    apply Int.floor_eq_iff.mpr
    constructor
    · push_cast; nlinarith
    · push_cast; nlinarith
  rw [hfloor]
  norm_num

/- ### Store write paths -/

/-- Sum of the per-update `gain` fields; mirrors the running
`total_gains` accumulator of the source loops. -/
def sumGains (us : List SessionUpdate) : Int :=
  (us.map SessionUpdate.gain).sum

/-- `save_update_session(timestamp, updates, total_gains)` from
slv2.py:396 and slv3.py:641: insert one `sessions` row of type
`skill_update`, then for each update overwrite the skill's
`current_level` and insert its `session_updates` row.  No range check of
any kind is performed on `new_level`. -/
def save_update_session (s : Store) (ts : Nat) (updates : List SessionUpdate)
    (total_gains : Int) : Store :=
  { skills := updates.foldl (fun rows u => setLevel rows u.attr u.skill u.new_level) s.skills,
    sessions := s.sessions ++ [⟨ts, total_gains, "skill_update", updates⟩] }

/-- `save_crystal_ball_assessment(assessment, session_data)` from
slv2.py:184: one `sessions` row of type `crystal_ball_assessment` whose
`total_gains` is the sum of `level - 1` over all skills, then for every
assessed skill the level is overwritten and a `session_updates` row
`(1, level, level - 1)` is inserted — the old level is hard-coded to 1. -/
def save_crystal_ball_assessment (s : Store) (ts : Nat)
    (assessment : List (String × String × Int)) : Store :=
  let updates := assessment.map (fun e => SessionUpdate.mk e.1 e.2.1 1 e.2.2 (e.2.2 - 1))
  { skills := assessment.foldl (fun rows e => setLevel rows e.1 e.2.1 e.2.2) s.skills,
    sessions := s.sessions ++ [⟨ts, sumGains updates, "crystal_ball_assessment", updates⟩] }

/-- `max(1, min(100, new_level))` from slv3.py:542. -/
def clamp_1_100 (v : Int) : Int :=
  max 1 (min 100 v)

/-- `process_crystal_ball_assessment(entries)` from slv3.py:527: each
entry's value (blank meaning 1) is clamped into [1,100]; the update row
is `(attribute, skill, 1, new_level, new_level - 1)`; the session always
commits, with no decrease or delta validation. -/
def process_crystal_ball_assessment (s : Store) (ts : Nat)
    (entries : List (String × String × Option Int)) : Store :=
  let updates := entries.map (fun e =>
    let nl := clamp_1_100 (e.2.2.getD 1)
    SessionUpdate.mk e.1 e.2.1 1 nl (nl - 1))
  { skills := updates.foldl (fun rows u => setLevel rows u.attr u.skill u.new_level) s.skills,
    sessions := s.sessions ++ [⟨ts, sumGains updates, "crystal_ball_assessment", updates⟩] }

/- ### Update-session validation (slv3.py:573 `process_skill_updates`) -/

/-- The business-rule failures of the update path, in the order the
source checks them (decrease, then delta, then ceiling). -/
inductive UpdateError where
  | levelDecrease
  | deltaExceeded
  | ceilingExceeded
deriving DecidableEq

/-- One entry of the update form: a skill key plus the typed-in value
(`none` models a blank field, which keeps the current level). -/
structure Entry where
  attr : String
  skill : String
  value : Option Int
deriving DecidableEq

/-- The three ordered checks of slv3.py:591-600 against the skill's
current level: `new_level < current_level`, then
`new_level > current_level + 10`, then `new_level > 100`. -/
def validateEntry (cur v : Int) : Option UpdateError :=
  if v < cur then some .levelDecrease
  else if v > cur + 10 then some .deltaExceeded
  else if v > 100 then some .ceilingExceeded
  else none

/-- The validation outcome of a single form entry (blank is valid). -/
def entryError (s : Store) (e : Entry) : Option UpdateError :=
  match e.value with
  | none => none
  | some v => validateEntry (get_current_skill s e.attr e.skill) v

/-- The update row an entry contributes when it strictly raises the
level, and `none` otherwise (blank or unchanged). -/
def changed_update (s : Store) (e : Entry) : Option SessionUpdate :=
  match e.value with
  | none => none
  | some v =>
    let cur := get_current_skill s e.attr e.skill
    if v > cur then some ⟨e.attr, e.skill, cur, v, v - cur⟩ else none

/-- The validation loop of `process_skill_updates`: walk the entries in
order, abort at the first failing entry, otherwise collect one update
per strictly-raised skill. -/
def collectUpdates (s : Store) : List Entry → Except UpdateError (List SessionUpdate)
  | [] => .ok []
  | e :: rest =>
    match e.value with
    | none => collectUpdates s rest
    | some v =>
      let cur := get_current_skill s e.attr e.skill
      match validateEntry cur v with
      | some err => .error err
      | none =>
        (collectUpdates s rest).map (fun us =>
          if v > cur then ⟨e.attr, e.skill, cur, v, v - cur⟩ :: us else us)

/-- `process_skill_updates` from slv3.py:573 (the batch counterpart of
slv2.py:314 `update_skills_session`): validate every entry, abort the
whole batch on the first error (the early `return` happens before any
database write, so the store comes back unchanged), do nothing when no
level was raised, and otherwise commit through `save_update_session`. -/
def process_skill_updates (s : Store) (ts : Nat) (entries : List Entry) :
    Option UpdateError × Store :=
  match collectUpdates s entries with
  | .error e => (some e, s)
  | .ok [] => (none, s)
  | .ok us => (none, save_update_session s ts us (sumGains us))

/- ### First-run detection and history -/

/-- `check_first_run` from slv2.py:99, slv3.py:132 and
tokyo_night_gui.py:191: true exactly when no skill row is above level 1
(`COUNT(*) WHERE current_level > 1` is zero) and the `sessions` table is
empty. -/
def check_first_run (s : Store) : Bool :=
  let has_progress : Bool := decide (0 < s.skills.countP (fun r => decide (1 < r.current_level)))
  let has_sessions : Bool := decide (0 < s.sessions.length)
  !(has_progress || has_sessions)

/-- `view_history` from slv2.py:428:
`SELECT ... FROM sessions ORDER BY session_timestamp DESC LIMIT 10`. -/
def view_history_slv2 (sessions : List Session) : List Session :=
  (sessions.mergeSort (fun a b => b.timestamp ≤ a.timestamp)).take 10

/-- `view_history` from sl.py:238: `sessions[-10:]`, the last ten stored
sessions displayed in stored (chronological) order. -/
def view_history_sl (sessions : List Session) : List Session :=
  sessions.drop (sessions.length - 10)

/- ### Lemmas about the skills table -/

/-- A row for `(a, sk)` is present in the table. -/
def hasRow (rows : List SkillRow) (a sk : String) : Prop :=
  ∃ r ∈ rows, r.attr = a ∧ r.skill = sk

instance (rows : List SkillRow) (a sk : String) : Decidable (hasRow rows a sk) := by
  unfold hasRow
  infer_instance

lemma setLevel_preserves_key (r : SkillRow) (a sk : String) (v : Int) :
    ((if r.attr = a && r.skill = sk then { r with current_level := v } else r) : SkillRow).attr
        = r.attr ∧
    ((if r.attr = a && r.skill = sk then { r with current_level := v } else r) : SkillRow).skill
        = r.skill := by
  split <;> simp

lemma find?_setLevel (rows : List SkillRow) (a sk a' sk' : String) (v : Int) :
    (setLevel rows a' sk' v).find? (fun r => r.attr = a && r.skill = sk)
      = (rows.find? (fun r => r.attr = a && r.skill = sk)).map
          (fun r => if r.attr = a' && r.skill = sk' then { r with current_level := v } else r) := by
  unfold setLevel
  rw [List.find?_map]
  have hfun : ((fun r : SkillRow => r.attr = a && r.skill = sk) ∘
      (fun r : SkillRow => if r.attr = a' && r.skill = sk' then { r with current_level := v } else r))
      = (fun r : SkillRow => r.attr = a && r.skill = sk) := by
    funext r
    rcases setLevel_preserves_key r a' sk' v with ⟨h1, h2⟩
    simp only [Function.comp_apply, h1, h2]
  rw [hfun]

lemma lookup_setLevel_same (rows : List SkillRow) (a sk : String) (v : Int)
    (hex : hasRow rows a sk) : lookup_level (setLevel rows a sk v) a sk = v := by
  obtain ⟨r, hr, hra, hrs⟩ := hex
  have hfind : (rows.find? (fun r => r.attr = a && r.skill = sk)).isSome := by
    rw [List.find?_isSome]
    exact ⟨r, hr, by simp [hra, hrs]⟩
  obtain ⟨r0, hr0⟩ := Option.isSome_iff_exists.mp hfind
  have hp := List.find?_some hr0
  unfold lookup_level
  rw [find?_setLevel, hr0]
  simp only [Option.map_some']
  rw [if_pos hp]

lemma lookup_setLevel_other (rows : List SkillRow) (a sk a' sk' : String) (v : Int)
    (hne : ¬(a = a' ∧ sk = sk')) :
    lookup_level (setLevel rows a' sk' v) a sk = lookup_level rows a sk := by
  unfold lookup_level
  rw [find?_setLevel]
  cases hf : rows.find? (fun r => r.attr = a && r.skill = sk) with
  | none => rfl
  | some r0 =>
    have hp := List.find?_some hf
    simp only [Bool.and_eq_true, decide_eq_true_eq] at hp
    have hq : ¬((r0.attr = a' && r0.skill = sk') = true) := by
      simp only [Bool.and_eq_true, decide_eq_true_eq]
      rintro ⟨h1, h2⟩
      exact hne ⟨hp.1 ▸ h1, hp.2 ▸ h2⟩
    simp only [Option.map_some']
    rw [if_neg hq]

lemma hasRow_setLevel (rows : List SkillRow) (a sk a' sk' : String) (v : Int)
    (hex : hasRow rows a sk) : hasRow (setLevel rows a' sk' v) a sk := by
  obtain ⟨r, hr, hra, hrs⟩ := hex
  refine ⟨if r.attr = a' && r.skill = sk' then { r with current_level := v } else r,
    List.mem_map_of_mem _ hr, ?_⟩
  rcases setLevel_preserves_key r a' sk' v with ⟨h1, h2⟩
  exact ⟨h1.trans hra, h2.trans hrs⟩

/-- The fold that commits a list of updates to the `skills` table. -/
def commitLevels (rows : List SkillRow) (us : List SessionUpdate) : List SkillRow :=
  us.foldl (fun rows u => setLevel rows u.attr u.skill u.new_level) rows

/-- Updates touch pairwise-distinct `(attribute, skill)` keys — true of
every batch the source builds, since the entry forms hold one field per
taxonomy skill. -/
def distinctKeys (us : List SessionUpdate) : Prop :=
  us.Pairwise (fun u v => ¬(u.attr = v.attr ∧ u.skill = v.skill))

instance (us : List SessionUpdate) : Decidable (distinctKeys us) := by
  unfold distinctKeys
  infer_instance

lemma lookup_commitLevels_untouched (us : List SessionUpdate) (rows : List SkillRow)
    (a sk : String) (h : ∀ u ∈ us, ¬(u.attr = a ∧ u.skill = sk)) :
    lookup_level (commitLevels rows us) a sk = lookup_level rows a sk := by
  induction us generalizing rows with
  | nil => rfl
  | cons w rest ih =>
    have hw := h w (List.mem_cons_self _ _)
    rw [commitLevels, List.foldl_cons, ← commitLevels,
      ih _ (fun u hu => h u (List.mem_cons_of_mem _ hu)),
      lookup_setLevel_other _ _ _ _ _ _ (fun hc => hw ⟨hc.1.symm, hc.2.symm⟩)]

lemma hasRow_commitLevels (us : List SessionUpdate) (rows : List SkillRow)
    (a sk : String) (hex : hasRow rows a sk) : hasRow (commitLevels rows us) a sk := by
  induction us generalizing rows with
  | nil => exact hex
  | cons w rest ih =>
    rw [commitLevels, List.foldl_cons, ← commitLevels]
    exact ih _ (hasRow_setLevel _ _ _ _ _ _ hex)

lemma lookup_commitLevels_mem (us : List SessionUpdate) (rows : List SkillRow)
    (hnd : distinctKeys us) :
    ∀ u ∈ us, hasRow rows u.attr u.skill →
      lookup_level (commitLevels rows us) u.attr u.skill = u.new_level := by
  induction us generalizing rows with
  | nil => intro u hu; exact absurd hu (List.not_mem_nil u)
  | cons w rest ih =>
    intro u hu hex
    rw [distinctKeys, List.pairwise_cons] at hnd
    rcases List.mem_cons.mp hu with hu | hu
    · subst hu
      rw [commitLevels, List.foldl_cons, ← commitLevels,
        lookup_commitLevels_untouched _ _ _ _
          (fun v hv hc => hnd.1 v hv ⟨hc.1.symm, hc.2.symm⟩),
        lookup_setLevel_same _ _ _ _ hex]
    · exact ih _ hnd.2 u hu (hasRow_setLevel _ _ _ _ _ _ hex)

/- ### Lemmas about the update validator -/

lemma validateEntry_decrease {cur v : Int} (h : v < cur) :
    validateEntry cur v = some .levelDecrease := by
  simp [validateEntry, h]

lemma changed_update_spec {s : Store} {e : Entry} {u : SessionUpdate}
    (h : changed_update s e = some u) :
    u.attr = e.attr ∧ u.skill = e.skill ∧
    u.old_level = get_current_skill s e.attr e.skill ∧
    u.old_level < u.new_level ∧ u.gain = u.new_level - u.old_level := by
  unfold changed_update at h
  cases hv : e.value with
  | none => rw [hv] at h; exact absurd h (by simp)
  | some v =>
    rw [hv] at h
    simp only at h
    split at h
    · cases h
      case _ hgt => exact ⟨rfl, rfl, rfl, hgt, rfl⟩
    · exact absurd h (by simp)

lemma collectUpdates_ok {s : Store} {entries : List Entry} {us : List SessionUpdate}
    (h : collectUpdates s entries = .ok us) :
    us = entries.filterMap (changed_update s) := by
  induction entries generalizing us with
  | nil =>
    simp only [collectUpdates] at h
    cases h
    rfl
  | cons e rest ih =>
    rw [List.filterMap_cons]
    unfold collectUpdates at h
    cases hv : e.value with
    | none =>
      rw [hv] at h
      rw [show changed_update s e = none by unfold changed_update; rw [hv]]
      exact ih h
    | some v =>
      rw [hv] at h
      simp only at h
      cases hval : validateEntry (get_current_skill s e.attr e.skill) v with
      | some err => rw [hval] at h; cases h
      | none =>
        rw [hval] at h
        cases hrec : collectUpdates s rest with
        | error err => rw [hrec] at h; cases h
        | ok us0 =>
          rw [hrec] at h
          simp only [Except.map] at h
          cases h
          rw [show changed_update s e =
              (if v > get_current_skill s e.attr e.skill then
                some ⟨e.attr, e.skill, get_current_skill s e.attr e.skill, v,
                  v - get_current_skill s e.attr e.skill⟩
              else none) by unfold changed_update; rw [hv]]
          split
          · rw [← ih hrec]
          · rw [← ih hrec]

lemma collectUpdates_mem {s : Store} {entries : List Entry} {us : List SessionUpdate}
    (h : collectUpdates s entries = .ok us) :
    ∀ u ∈ us, u.old_level = get_current_skill s u.attr u.skill ∧
      u.old_level < u.new_level ∧ u.gain = u.new_level - u.old_level := by
  intro u hu
  rw [collectUpdates_ok h] at hu
  obtain ⟨e, _, he⟩ := List.mem_filterMap.mp hu
  obtain ⟨ha, hsk, hold, hlt, hg⟩ := changed_update_spec he
  exact ⟨by rw [ha, hsk, hold], hlt, hg⟩

lemma collectUpdates_error_of_invalid {s : Store} {entries : List Entry}
    (h : ∃ e ∈ entries, entryError s e ≠ none) :
    ∃ err, collectUpdates s entries = .error err := by
  induction entries with
  | nil => obtain ⟨e, he, _⟩ := h; exact absurd he (List.not_mem_nil e)
  | cons e rest ih =>
    obtain ⟨e0, he0, herr⟩ := h
    unfold collectUpdates
    cases hv : e.value with
    | none =>
      have hee : entryError s e = none := by simp [entryError, hv]
      rcases List.mem_cons.mp he0 with he0e | hmem
      · exact absurd (he0e ▸ hee) herr
      · exact ih ⟨e0, hmem, herr⟩
    | some v =>
      simp only
      cases hval : validateEntry (get_current_skill s e.attr e.skill) v with
      | some err => exact ⟨err, rfl⟩
      | none =>
        have hee : entryError s e = none := by simp [entryError, hv, hval]
        have hmem : e0 ∈ rest := by
          rcases List.mem_cons.mp he0 with he0e | hmem
          · exact absurd (he0e ▸ hee) herr
          · exact hmem
        obtain ⟨err, herr2⟩ := ih ⟨e0, hmem, herr⟩
        exact ⟨err, by rw [herr2]; rfl⟩

lemma collectUpdates_append_error {s : Store} {pre l : List Entry} {err : UpdateError}
    (hpre : ∀ e ∈ pre, entryError s e = none)
    (h : collectUpdates s l = .error err) :
    collectUpdates s (pre ++ l) = .error err := by
  induction pre with
  | nil => exact h
  | cons e rest ih =>
    have he := hpre e (List.mem_cons_self _ _)
    have hrest := ih (fun x hx => hpre x (List.mem_cons_of_mem _ hx))
    rw [List.cons_append]
    unfold collectUpdates
    cases hv : e.value with
    | none => exact hrest
    | some v =>
      have he2 : validateEntry (get_current_skill s e.attr e.skill) v = none := by
        simpa [entryError, hv] using he
      simp only [he2, hrest, Except.map]

/-- `save_update_session` writes levels exactly through `commitLevels`. -/
lemma save_update_session_eq (s : Store) (ts : Nat) (us : List SessionUpdate) (tg : Int) :
    save_update_session s ts us tg =
      { skills := commitLevels s.skills us,
        sessions := s.sessions ++ [⟨ts, tg, "skill_update", us⟩] } := rfl

/- ### Initial-store rollup values -/

lemma calc_attr_init {a : String} (h10 : attribute_points initial_store a = 10)
    (hlen : (attribute_skill_names a).length = 10) :
    calculate_attribute_level initial_store a = 1 := by
  unfold calculate_attribute_level
  rw [h10, hlen]
  exact sigmoid_small (by norm_num) (by norm_num) (by norm_num)

lemma total_attribute_points_init : total_attribute_points initial_store = 5 := by
  have h1 : calculate_attribute_level initial_store "life_skills" = 1 :=
    calc_attr_init (by decide) (by decide)
  have h2 : calculate_attribute_level initial_store "content_creation" = 1 :=
    calc_attr_init (by decide) (by decide)
  have h3 : calculate_attribute_level initial_store "financial_literacy" = 1 :=
    calc_attr_init (by decide) (by decide)
  have h4 : calculate_attribute_level initial_store "career" = 1 :=
    calc_attr_init (by decide) (by decide)
  have h5 : calculate_attribute_level initial_store "vision_strategy" = 1 :=
    calc_attr_init (by decide) (by decide)
  unfold total_attribute_points
  rw [show attributes.map (fun p => calculate_attribute_level initial_store p.1) =
      [calculate_attribute_level initial_store "life_skills",
       calculate_attribute_level initial_store "content_creation",
       calculate_attribute_level initial_store "financial_literacy",
       calculate_attribute_level initial_store "career",
       calculate_attribute_level initial_store "vision_strategy"] from rfl]
  rw [h1, h2, h3, h4, h5]
  norm_num [List.sum_cons]

lemma overall_v2_init : calculate_overall_level_v2 initial_store = 1 := by
  have h : calculate_overall_level_v2 initial_store =
      sigmoid_level_calculation (total_attribute_points initial_store) 500 := rfl
  rw [h, total_attribute_points_init]
  exact sigmoid_small (by norm_num) (by norm_num) (by norm_num)

/- ### Claim theorems -/

/-- C1 (corrected), counterexample: at the initial reachable store state
(all fifty skills at level 1), the overall level computed by slv3.py and
tokyo_night_gui.py is the raw category-level sum 5, whereas the Leveling
Calculator applied to that sum with maxPoints 500 gives 1 — so the overall
level those variants expose is not `level(sum of category levels, 500)`. -/
theorem c1_counterexample :
    calculate_overall_level_v3 initial_store = 5 ∧
    sigmoid_level_calculation (total_attribute_points initial_store)
      (attributes.length * 100) = 1 ∧
    calculate_overall_level_v3 initial_store ≠
      sigmoid_level_calculation (total_attribute_points initial_store)
        (attributes.length * 100) := by
  have h3 : calculate_overall_level_v3 initial_store = 5 := total_attribute_points_init
  have h2 : sigmoid_level_calculation (total_attribute_points initial_store)
      (attributes.length * 100) = 1 := overall_v2_init
  exact ⟨h3, h2, by rw [h3, h2]; norm_num⟩

/-- C1 (amended): the slv2 variant exposes
`overallLevel = level(sum of the five category levels, 500)`, but the
slv3/tokyo_night variants expose the raw sum of the five category levels
instead of passing it through the Leveling Calculator; at the initial
store these give 1 and 5 respectively. -/
theorem c1_overall_level :
    (∀ s : Store, calculate_overall_level_v2 s =
        sigmoid_level_calculation (total_attribute_points s) 500) ∧
    (∀ s : Store, calculate_overall_level_v3 s = total_attribute_points s) ∧
    calculate_overall_level_v2 initial_store = 1 ∧
    calculate_overall_level_v3 initial_store = 5 :=
  ⟨fun _ => rfl, fun _ => rfl, overall_v2_init, total_attribute_points_init⟩

/-- C7 (confirmed): for every `totalPoints ≥ 0` and `maxPoints > 0`, the
Leveling Calculator returns an integer in [1, 100]. -/
theorem c7_level_range (tp mp : Int) (_htp : 0 ≤ tp) (_hmp : 0 < mp) :
    1 ≤ sigmoid_level_calculation tp mp ∧ sigmoid_level_calculation tp mp ≤ 100 :=
  ⟨sigmoid_ge_one tp mp, sigmoid_le_100 tp mp⟩

/-- Witness for C7 at `totalPoints = 250`, `maxPoints = 500`. -/
theorem c7_level_range_witness :
    0 ≤ (250 : Int) ∧ 0 < (500 : Int) ∧
    (1 ≤ sigmoid_level_calculation 250 500 ∧ sigmoid_level_calculation 250 500 ≤ 100) :=
  ⟨by norm_num, by norm_num, c7_level_range 250 500 (by norm_num) (by norm_num)⟩

/-- C8 (confirmed): for a fixed `maxPoints > 0` the Leveling Calculator is
monotone non-decreasing in `totalPoints`, including nonpositive values. -/
theorem c8_level_mono (mp t1 t2 : Int) (hmp : 0 < mp) (h12 : t1 ≤ t2) :
    sigmoid_level_calculation t1 mp ≤ sigmoid_level_calculation t2 mp :=
  sigmoid_mono hmp h12

/-- Witness for C8 at `maxPoints = 500`, `t1 = -3 ≤ t2 = 400`. -/
theorem c8_level_mono_witness :
    0 < (500 : Int) ∧ (-3 : Int) ≤ 400 ∧
    sigmoid_level_calculation (-3) 500 ≤ sigmoid_level_calculation 400 500 :=
  ⟨by norm_num, by norm_num, c8_level_mono 500 (-3) 400 (by norm_num) (by norm_num)⟩

/-- C10 (confirmed): for every rollup-producible input
`0 < totalPoints ≤ maxPoints`, the Leveling Calculator returns at most 99:
the logistic factor is strictly below 1, so `floor(1 + s * 99) ≤ 99` and
level 100 is unreachable through the category/overall rollup. -/
theorem c10_level_le_99 (tp mp : Int) (htp : 0 < tp) (_hle : tp ≤ mp) :
    sigmoid_level_calculation tp mp ≤ 99 :=
  sigmoid_le_99_of_pos mp htp

/-- Witness for C10 at the rollup maximum `totalPoints = maxPoints = 1000`
(every skill of a ten-skill category at level 100). -/
theorem c10_level_le_99_witness :
    0 < (1000 : Int) ∧ (1000 : Int) ≤ 1000 ∧ sigmoid_level_calculation 1000 1000 ≤ 99 :=
  ⟨by norm_num, by norm_num, c10_level_le_99 1000 1000 (by norm_num) (by norm_num)⟩

/-- Witness for C1 (amended) at the initial store. -/
theorem c1_overall_level_witness :
    calculate_overall_level_v2 initial_store =
      sigmoid_level_calculation (total_attribute_points initial_store) 500 ∧
    calculate_overall_level_v3 initial_store = total_attribute_points initial_store :=
  ⟨c1_overall_level.1 initial_store, c1_overall_level.2.1 initial_store⟩

/-- C9 (confirmed): `check_first_run` is true exactly when no stored
skill level exceeds 1 and no session exists, and it is false after any
committed session — an update commit, the slv3 assessment commit, or the
slv2 assessment commit all append a `sessions` row, so first-run
detection flips off. -/
theorem c9_first_run (s : Store) :
    (check_first_run s = true ↔ (∀ r ∈ s.skills, r.current_level ≤ 1) ∧ s.sessions = []) ∧
    (∀ (ts : Nat) (us : List SessionUpdate) (tg : Int),
      check_first_run (save_update_session s ts us tg) = false) ∧
    (∀ (ts : Nat) (entries : List (String × String × Option Int)),
      check_first_run (process_crystal_ball_assessment s ts entries) = false) ∧
    (∀ (ts : Nat) (assessment : List (String × String × Int)),
      check_first_run (save_crystal_ball_assessment s ts assessment) = false) := by
  refine ⟨?_, ?_, ?_, ?_⟩
  · simp [check_first_run, List.countP_eq_zero, List.length_eq_zero]
  · intro ts us tg
    simp [check_first_run, save_update_session]
  · intro ts entries
    simp [check_first_run, process_crystal_ball_assessment]
  · intro ts assessment
    simp [check_first_run, save_crystal_ball_assessment]

/-- Witness for C9: on the freshly initialized store first-run holds, and
it flips off after an (even empty) committed session. -/
theorem c9_first_run_witness :
    (check_first_run initial_store = true ↔
      (∀ r ∈ initial_store.skills, r.current_level ≤ 1) ∧ initial_store.sessions = []) ∧
    check_first_run (save_update_session initial_store 5 [] 0) = false :=
  ⟨(c9_first_run initial_store).1, (c9_first_run initial_store).2.1 5 [] 0⟩

/-- The returned history is ordered newest first: every later entry has a
timestamp no greater than every earlier one. -/
def newest_first (l : List Session) : Prop :=
  List.Pairwise (fun a b : Session => b.timestamp ≤ a.timestamp) l

/-- Fifteen sessions appended in chronological order (timestamps 1..15),
as `update_skills_session` produces them. -/
def fifteen_sessions : List Session :=
  (List.range 15).map (fun i => ⟨i + 1, 0, "skill_update", []⟩)

/-- C2 (corrected), counterexample: on a store with fifteen sessions, the
sl.py `view_history` (`sessions[-10:]`) does return exactly ten sessions,
but in stored chronological order — the oldest of the ten first — so its
output is not ordered newest first. -/
theorem c2_counterexample :
    fifteen_sessions.length = 15 ∧
    (view_history_sl fifteen_sessions).length = 10 ∧
    ¬ newest_first (view_history_sl fifteen_sessions) := by
  refine ⟨by decide, by decide, ?_⟩
  unfold newest_first
  decide

/-- C2 (amended): on every store with fifteen sessions, the slv2
`view_history` (`ORDER BY session_timestamp DESC LIMIT 10`) returns
exactly ten of the stored sessions ordered newest first, while the sl.py
`view_history` returns the ten most recent sessions in stored
(chronological) order, i.e. `sessions.drop 5`. -/
theorem c2_history_limit (sessions : List Session) (h : sessions.length = 15) :
    (view_history_slv2 sessions).length = 10 ∧
    newest_first (view_history_slv2 sessions) ∧
    (∀ x ∈ view_history_slv2 sessions, x ∈ sessions) ∧
    view_history_sl sessions = sessions.drop 5 := by
  refine ⟨?_, ?_, ?_, ?_⟩
  · rw [view_history_slv2, List.length_take, List.length_mergeSort, h]
    rfl
  · have htrans : ∀ a b c : Session,
        (fun a b : Session => decide (b.timestamp ≤ a.timestamp)) a b = true →
        (fun a b : Session => decide (b.timestamp ≤ a.timestamp)) b c = true →
        (fun a b : Session => decide (b.timestamp ≤ a.timestamp)) a c = true := by
      intro a b c hab hbc
      simp only [decide_eq_true_eq] at *
      omega
    have htotal : ∀ a b : Session,
        ((fun a b : Session => decide (b.timestamp ≤ a.timestamp)) a b ||
         (fun a b : Session => decide (b.timestamp ≤ a.timestamp)) b a) = true := by
      intro a b
      simp only [Bool.or_eq_true, decide_eq_true_eq]
      omega
    have hs := List.sorted_mergeSort htrans htotal sessions
    have hp : List.Pairwise (fun a b : Session => b.timestamp ≤ a.timestamp)
        (sessions.mergeSort (fun a b => decide (b.timestamp ≤ a.timestamp))) :=
      hs.imp (fun hab => of_decide_eq_true hab)
    exact List.Pairwise.sublist (List.take_sublist 10 _) hp
  · intro x hx
    have hx2 := List.take_subset _ _ hx
    exact (List.mergeSort_perm sessions _).subset hx2
  · rw [view_history_sl, h]

/-- Witness for C2 on the concrete fifteen-session store. -/
theorem c2_history_limit_witness :
    fifteen_sessions.length = 15 ∧
    ((view_history_slv2 fifteen_sessions).length = 10 ∧
     newest_first (view_history_slv2 fifteen_sessions) ∧
     (∀ x ∈ view_history_slv2 fifteen_sessions, x ∈ fifteen_sessions) ∧
     view_history_sl fifteen_sessions = fifteen_sessions.drop 5) :=
  ⟨by decide, c2_history_limit fifteen_sessions (by decide)⟩

/-- A committed update overwrites the targeted skill row with exactly
the update's `new_level`, whatever that value is. -/
lemma write_through (s : Store) (ts : Nat) (u : SessionUpdate) (tg : Int)
    (hex : hasRow s.skills u.attr u.skill) :
    get_current_skill (save_update_session s ts [u] tg) u.attr u.skill = u.new_level := by
  rw [save_update_session_eq]
  exact lookup_commitLevels_mem [u] s.skills (List.pairwise_singleton _ _)
    u (List.mem_singleton_self u) hex

/-- A one-skill store used to exercise the adapter write path. -/
def c3_store : Store := ⟨[⟨"life_skills", "communication", 1⟩], []⟩

/-- C3 (corrected), counterexample: committing a `new_level` of 150 —
outside [1,100] — through `save_update_session` stores 150 in the skills
table; the adapter raises no data-integrity error and rejects nothing. -/
theorem c3_counterexample :
    (150 : Int) > 100 ∧
    get_current_skill
      (save_update_session c3_store 7 [⟨"life_skills", "communication", 1, 150, 149⟩] 149)
      "life_skills" "communication" = 150 :=
  ⟨by norm_num, by decide⟩

/-- C3 (amended): the store adapter (`save_update_session`) performs no
range validation — it writes any `new_level`, in or out of [1,100],
verbatim to the skill row.  Range enforcement exists only upstream: the
update validator never passes a value above 100 through its checks, and
the slv3 assessment path clamps every committed value into [1,100]. -/
theorem c3_adapter_no_range_check :
    (∀ (s : Store) (ts : Nat) (u : SessionUpdate) (tg : Int),
      hasRow s.skills u.attr u.skill →
      get_current_skill (save_update_session s ts [u] tg) u.attr u.skill = u.new_level) ∧
    (∀ cur v : Int, validateEntry cur v = none → v ≤ 100) ∧
    (∀ v : Int, 1 ≤ clamp_1_100 v ∧ clamp_1_100 v ≤ 100) := by
  refine ⟨write_through, ?_, ?_⟩
  · intro cur v h
    unfold validateEntry at h
    split_ifs at h
    omega
  · intro v
    unfold clamp_1_100
    constructor
    · exact le_max_left _ _
    · exact max_le (by norm_num) (min_le_left _ _)

/-- Witness for C3 (amended): the adapter also writes a `new_level` of 0
— below the [1,100] range — unchanged. -/
theorem c3_adapter_no_range_check_witness :
    hasRow c3_store.skills "life_skills" "communication" ∧
    get_current_skill
      (save_update_session c3_store 3 [⟨"life_skills", "communication", 1, 0, -1⟩] (-1))
      "life_skills" "communication" = 0 :=
  ⟨by decide,
   c3_adapter_no_range_check.1 c3_store 3 ⟨"life_skills", "communication", 1, 0, -1⟩ (-1)
     (by decide)⟩

/-- C4 (confirmed): both assessment commit paths record, for every skill
and every store state (no hypothesis restricts the prior stored levels,
and no decrease or delta-of-10 check exists on this path — the session is
always appended), a SessionUpdate with `old_level = 1` and
`gain = new_level - 1`; the slv3 path additionally clamps the recorded
`new_level` into [1,100]. -/
theorem c4_assessment_baseline (s : Store) (ts : Nat)
    (assessment : List (String × String × Int))
    (entries : List (String × String × Option Int)) :
    (∃ ups : List SessionUpdate,
      (save_crystal_ball_assessment s ts assessment).sessions =
        s.sessions ++ [⟨ts, sumGains ups, "crystal_ball_assessment", ups⟩] ∧
      ups.length = assessment.length ∧
      ∀ u ∈ ups, u.old_level = 1 ∧ u.gain = u.new_level - 1) ∧
    (∃ ups : List SessionUpdate,
      (process_crystal_ball_assessment s ts entries).sessions =
        s.sessions ++ [⟨ts, sumGains ups, "crystal_ball_assessment", ups⟩] ∧
      ups.length = entries.length ∧
      ∀ u ∈ ups, u.old_level = 1 ∧ u.gain = u.new_level - 1 ∧
        1 ≤ u.new_level ∧ u.new_level ≤ 100) := by
  constructor
  · refine ⟨assessment.map (fun e => SessionUpdate.mk e.1 e.2.1 1 e.2.2 (e.2.2 - 1)), ?_, ?_, ?_⟩
    · rfl
    · exact List.length_map _ _
    · intro u hu
      obtain ⟨e, _, rfl⟩ := List.mem_map.mp hu
      exact ⟨rfl, rfl⟩
  · refine ⟨entries.map (fun e =>
      SessionUpdate.mk e.1 e.2.1 1 (clamp_1_100 (e.2.2.getD 1)) (clamp_1_100 (e.2.2.getD 1) - 1)),
      ?_, ?_, ?_⟩
    · rfl
    · exact List.length_map _ _
    · intro u hu
      obtain ⟨e, _, rfl⟩ := List.mem_map.mp hu
      refine ⟨rfl, rfl, le_max_left _ _, max_le (by norm_num) (min_le_left _ _)⟩

/-- A store whose only skill already sits at level 80, to show the
assessment baseline ignores the actual prior level. -/
def c4_store : Store := ⟨[⟨"life_skills", "communication", 80⟩], []⟩

/-- Witness for C4 on a store whose skill is already at level 80: an
assessment that sets it to 10 (a decrease the update path would refuse)
still commits, records `old_level = 1` and `gain = new_level - 1`. -/
theorem c4_assessment_baseline_witness :
    (∃ ups : List SessionUpdate,
      (save_crystal_ball_assessment c4_store 9 [("life_skills", "communication", 10)]).sessions =
        c4_store.sessions ++ [⟨9, sumGains ups, "crystal_ball_assessment", ups⟩] ∧
      ups.length = [("life_skills", "communication", (10 : Int))].length ∧
      ∀ u ∈ ups, u.old_level = 1 ∧ u.gain = u.new_level - 1) ∧
    (∃ ups : List SessionUpdate,
      (process_crystal_ball_assessment c4_store 9 [("life_skills", "communication", some 200)]).sessions =
        c4_store.sessions ++ [⟨9, sumGains ups, "crystal_ball_assessment", ups⟩] ∧
      ups.length = [("life_skills", "communication", (some 200 : Option Int))].length ∧
      ∀ u ∈ ups, u.old_level = 1 ∧ u.gain = u.new_level - 1 ∧
        1 ≤ u.new_level ∧ u.new_level ≤ 100) :=
  c4_assessment_baseline c4_store 9 [("life_skills", "communication", 10)]
    [("life_skills", "communication", some 200)]

/-- C5 (amended): a proposed update batch containing a requested level
below the skill's current level always fails and leaves the store
untouched (the early return precedes every database write); the specific
error is `LevelDecreaseRejected` whenever every entry before the
decreasing one validates cleanly — an earlier invalid entry otherwise
fails the batch first with its own error. -/
theorem c5_decrease_rejection (s : Store) (ts : Nat) (entries : List Entry) :
    ((∃ e ∈ entries, ∃ r : Int, e.value = some r ∧ r < get_current_skill s e.attr e.skill) →
      (∃ err, (process_skill_updates s ts entries).1 = some err) ∧
      (process_skill_updates s ts entries).2 = s) ∧
    (∀ (pre post : List Entry) (a sk : String) (r : Int),
      entries = pre ++ Entry.mk a sk (some r) :: post →
      (∀ e ∈ pre, entryError s e = none) →
      r < get_current_skill s a sk →
      process_skill_updates s ts entries = (some .levelDecrease, s)) := by
  constructor
  · rintro ⟨e, he, r, hv, hdec⟩
    have hinv : entryError s e ≠ none := by
      simp [entryError, hv, validateEntry_decrease hdec]
    obtain ⟨err, herr⟩ := collectUpdates_error_of_invalid ⟨e, he, hinv⟩
    unfold process_skill_updates
    rw [herr]
    exact ⟨⟨err, rfl⟩, rfl⟩
  · rintro pre post a sk r rfl hpre hdec
    have hmid : collectUpdates s (Entry.mk a sk (some r) :: post) = .error .levelDecrease := by
      unfold collectUpdates
      simp only
      rw [validateEntry_decrease hdec]
    have hall := collectUpdates_append_error hpre hmid
    unfold process_skill_updates
    rw [hall]

/-- A two-skill store whose update form combines a delta violation with
a decrease. -/
def c5x_store : Store :=
  ⟨[⟨"life_skills", "communication", 1⟩, ⟨"life_skills", "time_management", 1⟩], []⟩

/-- A batch whose first entry exceeds the +10 delta (1 → 12) and whose
second entry is a decrease (1 → 0). -/
def c5x_entries : List Entry :=
  [⟨"life_skills", "communication", some 12⟩, ⟨"life_skills", "time_management", some 0⟩]

/-- C5 (corrected), counterexample: this batch contains a skill whose
requested level is below its current level, yet the proposal fails with
`DeltaExceeded` — the first validation failure in entry order — not with
`LevelDecreaseRejected` (the store is still left unchanged). -/
theorem c5_counterexample :
    (∃ e ∈ c5x_entries, ∃ r : Int,
      e.value = some r ∧ r < get_current_skill c5x_store e.attr e.skill) ∧
    process_skill_updates c5x_store 0 c5x_entries = (some .deltaExceeded, c5x_store) ∧
    UpdateError.deltaExceeded ≠ UpdateError.levelDecrease :=
  ⟨⟨⟨"life_skills", "time_management", some 0⟩, by decide, 0, rfl, by decide⟩, rfl, by decide⟩

/-- A one-skill store at level 5 with a single decreasing proposal 5 → 3. -/
def c5_store : Store := ⟨[⟨"career", "technical_mastery", 5⟩], []⟩

/-- The single-entry batch requesting the decrease 5 → 3. -/
def c5_entries : List Entry := [⟨"career", "technical_mastery", some 3⟩]

/-- Witness for C5 (amended) on the concrete decreasing proposal: the
batch fails, the store is unchanged, and — the decrease being the first
entry — the error is `LevelDecreaseRejected`. -/
theorem c5_decrease_rejection_witness :
    (∃ e ∈ c5_entries, ∃ r : Int,
      e.value = some r ∧ r < get_current_skill c5_store e.attr e.skill) ∧
    ((∃ err, (process_skill_updates c5_store 4 c5_entries).1 = some err) ∧
      (process_skill_updates c5_store 4 c5_entries).2 = c5_store) ∧
    process_skill_updates c5_store 4 c5_entries = (some .levelDecrease, c5_store) :=
  ⟨⟨⟨"career", "technical_mastery", some 3⟩, by decide, 3, rfl, by decide⟩,
   (c5_decrease_rejection c5_store 4 c5_entries).1
     ⟨⟨"career", "technical_mastery", some 3⟩, by decide, 3, rfl, by decide⟩,
   (c5_decrease_rejection c5_store 4 c5_entries).2 [] [] "career" "technical_mastery" 3 rfl
     (by intro e he; exact absurd he (List.not_mem_nil e)) (by decide)⟩

/-- C6 (confirmed): a successfully committed update session appends one
`sessions` row whose `total_gains` is exactly the sum of the per-skill
gains, records exactly one SessionUpdate per strictly-raised skill
(`us = entries.filterMap (changed_update s)`), each row carrying the
pre-commit level as `old_level`, the requested level as `new_level` and
`gain = new_level - old_level`, and afterwards every updated skill's
stored level equals its row's `new_level`. -/
theorem c6_update_commit (s : Store) (ts : Nat) (entries : List Entry)
    (us : List SessionUpdate)
    (hok : collectUpdates s entries = .ok us)
    (hnd : distinctKeys us)
    (hrows : ∀ u ∈ us, hasRow s.skills u.attr u.skill)
    (hne : us ≠ []) :
    process_skill_updates s ts entries = (none, save_update_session s ts us (sumGains us)) ∧
    (save_update_session s ts us (sumGains us)).sessions =
      s.sessions ++ [⟨ts, sumGains us, "skill_update", us⟩] ∧
    us = entries.filterMap (changed_update s) ∧
    (∀ u ∈ us,
      u.old_level = get_current_skill s u.attr u.skill ∧
      u.old_level < u.new_level ∧
      u.gain = u.new_level - u.old_level ∧
      get_current_skill (save_update_session s ts us (sumGains us)) u.attr u.skill
        = u.new_level) := by
  refine ⟨?_, rfl, collectUpdates_ok hok, ?_⟩
  · unfold process_skill_updates
    rw [hok]
    cases us with
    | nil => exact absurd rfl hne
    | cons u rest => rfl
  · intro u hu
    obtain ⟨hold, hlt, hg⟩ := collectUpdates_mem hok u hu
    refine ⟨hold, hlt, hg, ?_⟩
    rw [save_update_session_eq]
    exact lookup_commitLevels_mem us s.skills hnd u hu (hrows u hu)

/-- A two-skill store for the `{A: +5, B: +3}` commit example. -/
def c6_store : Store :=
  ⟨[⟨"career", "technical_mastery", 1⟩, ⟨"career", "soft_skills_work", 1⟩], []⟩

/-- The `{A: 1 → 6, B: 1 → 4}` update batch. -/
def c6_entries : List Entry :=
  [⟨"career", "technical_mastery", some 6⟩, ⟨"career", "soft_skills_work", some 4⟩]

/-- The two SessionUpdate rows the batch produces. -/
def c6_updates : List SessionUpdate :=
  [⟨"career", "technical_mastery", 1, 6, 5⟩, ⟨"career", "soft_skills_work", 1, 4, 3⟩]

/-- Witness for C6 on the concrete `{A: +5, B: +3}` commit: two rows,
`totalGain = 8`, and both skills read back at their new levels. -/
theorem c6_update_commit_witness :
    collectUpdates c6_store c6_entries = .ok c6_updates ∧
    distinctKeys c6_updates ∧
    (∀ u ∈ c6_updates, hasRow c6_store.skills u.attr u.skill) ∧
    c6_updates ≠ [] ∧
    sumGains c6_updates = 8 ∧
    (process_skill_updates c6_store 17 c6_entries =
        (none, save_update_session c6_store 17 c6_updates (sumGains c6_updates)) ∧
      (save_update_session c6_store 17 c6_updates (sumGains c6_updates)).sessions =
        c6_store.sessions ++ [⟨17, sumGains c6_updates, "skill_update", c6_updates⟩] ∧
      c6_updates = c6_entries.filterMap (changed_update c6_store) ∧
      (∀ u ∈ c6_updates,
        u.old_level = get_current_skill c6_store u.attr u.skill ∧
        u.old_level < u.new_level ∧
        u.gain = u.new_level - u.old_level ∧
        get_current_skill (save_update_session c6_store 17 c6_updates (sumGains c6_updates))
          u.attr u.skill = u.new_level)) :=
  ⟨rfl, by decide, by decide, by decide, by decide,
   c6_update_commit c6_store 17 c6_entries c6_updates rfl (by decide) (by decide) (by decide)⟩

end SoloLeveling
